import Mathlib

/-!
# Verification of the DNS-SD discovery core (`dns_sd.c`)

Shallow embedding of the discovery-record linked list and the operations of
`dns_sd.c`: `dnssd_remove_node`, `dnssd_free_all_discovery_data`,
`port_knock_discovery_data`, `remove_dup_discovery_data`,
`dnssd_fill_context_info` (description construction), `dnssd_context_scan`
and `dnssd_discover_host`.

Chain representation.  The discovery chain handed to these functions by
`dnssd_find_hosts` (the discovery backends are not part of this file's
source) always ends in one blank placeholder node after the data records:
every traversal in `dns_sd.c` is written `for (...; ndata->next != NULL; ...)`
and so deliberately never treats the successor-less last node as a record.
A sequence of records `rs` is therefore represented by the node chain
`rs ++ [blankRec]`, and the records of a chain are its `dropLast`.

`dnssd_remove_node`, `dnssd_free_all_discovery_data`, `dnssd_context_scan`
and `dnssd_discover_host` never follow a pointer of a freed node, so they are
embedded directly on the chain as a `List`.  `port_knock_discovery_data` and
`remove_dup_discovery_data` free nodes in the middle of the traversal they
are running and then keep walking through the freed node's `next` pointer,
so they are embedded on an explicit pointer arena (node contents are
immutable; `free` is modelled as leaving the node's memory intact, which is
the de-facto behaviour the code relies on).
-/

/-- One discovery record (`struct dns_sd_discovery_data`): the fields used by
`dns_sd.c` (`hostname`, `addr_str`, `port`).  The `next` pointer is the list
/ arena structure; the `lock` is shared per chain and has no structural
content in this embedding. -/
structure DnsSdRec where
  hostname : String
  addr_str : String
  port : Nat
deriving DecidableEq, Repr

/-- The blank placeholder node that terminates every discovery chain
(allocated zeroed by the discovery backend; never treated as a record by the
loops of `dns_sd.c`). -/
def blankRec : DnsSdRec := ⟨"", "", 0⟩

instance : Inhabited DnsSdRec := ⟨blankRec⟩

/-- The records represented by a node chain: every node except the trailing
placeholder. -/
def chainRecords (c : List DnsSdRec) : List DnsSdRec := c.dropLast

/-- The scanning loop of `dnssd_remove_node` for `n ≥ 1`:
`for (i = 0, ndata = d; ndata->next != NULL; ndata = ndata->next)`;
when `i == n` the node `ndata` is freed and its predecessor is relinked to
`ndata->next` (non-null by the loop condition).  A node without a successor
is never removed by this loop. -/
def removeLoop (i n : Nat) : List DnsSdRec → List DnsSdRec
  | [] => []
  | [x] => [x]
  | x :: y :: tl => if i = n then y :: tl else x :: removeLoop (i + 1) n (y :: tl)

/-- `dnssd_remove_node` on a chain known to be non-empty.  For `n = 0` the
head is freed and the head pointer advances (`tdata = d->next; ...; d = tdata`).
The `[]` arm is unreachable: the C function dereferences the head
unconditionally and every call site in `dns_sd.c` passes a non-null chain. -/
def removeNodeGo : List DnsSdRec → Nat → List DnsSdRec
  | [], _ => []
  | _ :: tl, 0 => tl
  | l, n + 1 => removeLoop 0 (n + 1) l

/-- `dnssd_remove_node(&ddata, n)`.  `none` models the null-pointer
dereference the C code performs when the chain is empty (`d->next`
respectively `ndata->next` with `d == NULL`). -/
def dnssd_remove_node (l : List DnsSdRec) (n : Nat) : Option (List DnsSdRec) :=
  match l with
  | [] => none
  | _ :: _ => some (removeNodeGo l n)

/-- `dnssd_free_all_discovery_data`: `while (d) dnssd_remove_node(&d, 0)`. -/
def dnssd_free_all_discovery_data : List DnsSdRec → List DnsSdRec
  | [] => []
  | d :: rest => dnssd_free_all_discovery_data (removeNodeGo (d :: rest) 0)

/-! ## The pointer arena

`port_knock_discovery_data` and `remove_dup_discovery_data` free the node
they are standing on and keep iterating through its (now stale) `next`
pointer.  To embed that exactly, the chain is represented as an arena of
node ids: node contents (`recOf`) are immutable, the mutable state is the
`next` pointer of each node plus the head pointer.  `free` itself leaves the
node's memory intact (the behaviour the C code relies on), so it needs no
bookkeeping; a stale pointer read simply returns the last value written. -/

/-- Mutable part of a discovery chain: per-node `next` pointer (by node id)
and the head pointer. -/
structure Arena where
  nxt : List (Option Nat)
  head : Option Nat
deriving DecidableEq, Repr

/-- Read a node's `next` pointer. -/
def nxtOf (a : Arena) (id : Nat) : Option Nat := (a.nxt.getD id none)

/-- Write a node's `next` pointer. -/
def setNxt (a : Arena) (id : Nat) (v : Option Nat) : Arena :=
  { a with nxt := a.nxt.set id v }

/-- Read a node's record contents (immutable). -/
def recOf (recs : List DnsSdRec) (id : Nat) : DnsSdRec := recs.getD id blankRec

/-- Fresh arena for a chain of `n` nodes: node `i` points to `i + 1`, the last
node points nowhere, the head is node `0`. -/
def arenaOf (n : Nat) : Arena :=
  ⟨(List.range n).map (fun i => if i + 1 < n then some (i + 1) else none),
   if n = 0 then none else some 0⟩

/-- The loop of `dnssd_remove_node` for `n ≥ 1`, on the arena: walk the live
chain; at index `n` free the node and relink its predecessor to its
successor.  `fuel` bounds the walk (every `next` pointer leads to a strictly
larger node id, so `nxt.length + 1` steps always suffice). -/
def arenaRemoveLoop : Nat → Arena → Nat → Nat → Nat → Nat → Arena
  | 0, a, _, _, _, _ => a
  | fuel + 1, a, ld, nd, i, n =>
    match nxtOf a nd with
    | none => a
    | some t =>
      if i = n then setNxt a ld t
      else arenaRemoveLoop fuel a nd t (i + 1) n

/-- `dnssd_remove_node(&d, n)` on the arena.  A `none` head is the
null-dereference case; call sites inside `dns_sd.c` never reach it. -/
def arenaRemoveNode (a : Arena) (n : Nat) : Arena :=
  match a.head with
  | none => a
  | some h =>
    if n = 0 then { a with head := nxtOf a h }
    else arenaRemoveLoop (a.nxt.length + 1) a h h 0 n

/-- Walk the live chain from a pointer, collecting node ids. -/
def walkChain : Nat → Option Nat → Arena → List Nat
  | 0, _, _ => []
  | _ + 1, none, _ => []
  | fuel + 1, some h, a => h :: walkChain fuel (nxtOf a h) a

/-- The live node chain of an arena. -/
def arenaChain (a : Arena) : List Nat := walkChain (a.nxt.length + 1) a.head a

/-- The records currently represented by an arena: the live chain minus the
trailing placeholder node. -/
def arenaRecords (recs : List DnsSdRec) (a : Arena) : List DnsSdRec :=
  ((arenaChain a).map (recOf recs)).dropLast

/-! ## `port_knock_discovery_data`

The network is abstracted as an oracle `resolve addr port`:
`none` models `getaddrinfo` failing, `some cs` models success with one
boolean per resolved candidate (`create_socket(rp, DEFAULT_TIMEOUT_MS)`
succeeding or not; success is followed by an immediate `close`). -/

/-- Body of the port-knock loop for the node `nd`: on resolution failure
`dnssd_remove_node(&d, i)`; on success, one pass over the candidates where
every failed connect calls `dnssd_remove_node(&d, i)` again and every
successful connect does `i++`.  Returns the updated arena and `i`. -/
def knockBody (resolve : String → Nat → Option (List Bool)) (recs : List DnsSdRec)
    (a : Arena) (i nd : Nat) : Arena × Nat :=
  match resolve (recOf recs nd).addr_str (recOf recs nd).port with
  | none => (arenaRemoveNode a i, i)
  | some cs =>
    cs.foldl
      (fun st c => if c then (st.1, st.2 + 1) else (arenaRemoveNode st.1 st.2, st.2))
      (a, i)

/-- The port-knock traversal:
`for (i = 0, ndata = d; ndata->next != NULL; ndata = ndata->next)`.
The advance reads `ndata->next` after the body ran, through the arena, so a
node freed by the body is walked through exactly as the C code does. -/
def portKnockLoop (resolve : String → Nat → Option (List Bool)) (recs : List DnsSdRec) :
    Nat → Arena → Nat → Nat → Arena
  | 0, a, _, _ => a
  | fuel + 1, a, i, nd =>
    match nxtOf a nd with
    | none => a
    | some _ =>
      let st := knockBody resolve recs a i nd
      match nxtOf st.1 nd with
      | none => st.1
      | some nd' => portKnockLoop resolve recs fuel st.1 st.2 nd'

/-- `port_knock_discovery_data(&ddata)`.  `none` models the unconditional
`iio_mutex_lock(d->lock)` dereferencing a null head. -/
def port_knock_discovery_data (resolve : String → Nat → Option (List Bool))
    (recs : List DnsSdRec) (a : Arena) : Option Arena :=
  match a.head with
  | none => none
  | some h => some (portKnockLoop resolve recs (a.nxt.length + 1) a 0 h)

/-! ## `remove_dup_discovery_data` -/

/-- Inner dedup loop:
`for (j = i + 1, mdata = ndata->next; mdata->next != NULL; mdata = mdata->next)`;
equal `(hostname, addr_str)` keys call `dnssd_remove_node(&d, j)`, and `j`
is incremented on every iteration. -/
def dedupInner (recs : List DnsSdRec) (nd : Nat) :
    Nat → Arena → Nat → Nat → Arena
  | 0, a, _, _ => a
  | fuel + 1, a, j, md =>
    match nxtOf a md with
    | none => a
    | some _ =>
      let a' :=
        if (recOf recs md).hostname = (recOf recs nd).hostname ∧
            (recOf recs md).addr_str = (recOf recs nd).addr_str then
          arenaRemoveNode a j
        else a
      match nxtOf a' md with
      | none => a'
      | some md' => dedupInner recs nd fuel a' (j + 1) md'

/-- Outer dedup loop:
`for (i = 0, ndata = d; ndata->next != NULL; ndata = ndata->next)`. -/
def dedupOuter (recs : List DnsSdRec) :
    Nat → Arena → Nat → Nat → Arena
  | 0, a, _, _ => a
  | fuel + 1, a, i, nd =>
    match nxtOf a nd with
    | none => a
    | some md =>
      let a' := dedupInner recs nd (a.nxt.length + 1) a (i + 1) md
      match nxtOf a' nd with
      | none => a'
      | some nd' => dedupOuter recs fuel a' (i + 1) nd'

/-- `remove_dup_discovery_data(&ddata)`: the two guards
(`if (!d) return; if (!d->next) return;`) and the locked double loop. -/
def remove_dup_discovery_data (recs : List DnsSdRec) (a : Arena) : Arena :=
  match a.head with
  | none => a
  | some h =>
    match nxtOf a h with
    | none => a
    | some _ => dedupOuter recs (a.nxt.length + 1) a 0 h

/-- Whether `remove_dup_discovery_data` reaches `iio_mutex_lock(d->lock)`:
both early-return guards have been passed. -/
def remove_dup_locks (a : Arena) : Bool :=
  match a.head with
  | none => false
  | some h =>
    match nxtOf a h with
    | none => false
    | some _ => true

/-! ## `dnssd_fill_context_info`: the description string

Strings are embedded as `List Char` (one `Char` per byte; the strings
involved are plain ASCII) so that the `snprintf` byte arithmetic of the
device-name loop can be stated exactly.  The description buffer is
`char description[255]`, so each `snprintf(description, sizeof(description), ...)`
keeps at most 254 characters. -/

/-- Byte strings of the description builder. -/
abbrev Str := List Char

/-- A device as seen through the protocol session: `ctx->devices[i]->name`
may be null.
Modelled from the spec: the protocol-session object (`struct iio_context`,
created by `network_create_context`) is an external collaborator, specified
only at its interface (`session.device_name(i)` may be absent). -/
structure IioDevice where
  devname : Option Str
deriving DecidableEq, Repr

/-- The protocol session of one host, as read by `dnssd_fill_context_info`.
Modelled from the spec: `network_create_context`,
`iio_context_get_attr_value(ctx, "hw_model" / "hw_serial")`,
`ctx->nb_devices`, `ctx->devices[i]` and `ctx->description` are external
collaborators (`session.attribute(name) -> text | absent`,
`session.device_count`, `session.device_name(i)`,
`session.top_level_description`). -/
structure IioCtx where
  hw_model : Option Str
  hw_serial : Option Str
  description : Str
  devices : List IioDevice
deriving DecidableEq, Repr

/-- The device-name loop of `dnssd_fill_context_info`:
`for (i = 0; i < ctx->nb_devices - 1; i++)` appends `"<name>,"` for every
device with a non-null name, through
`snprintf(p, sizeof(description) - strlen(description) - 1, "%s,", name)`,
which writes at most `254 - strlen(description) - 1` characters at the end
of the buffer. -/
def devJoinLoop : List IioDevice → Str → Str
  | [], desc => desc
  | dev :: rest, desc =>
    match dev.devname with
    | none => devJoinLoop rest desc
    | some nm => devJoinLoop rest (desc ++ (nm ++ [',']).take (253 - desc.length))

/-- The description built by `dnssd_fill_context_info` for one record, given
its protocol session and `addr_str`.  Each branch is one `snprintf` into the
255-byte buffer; the last branch ends with `p--; *p = ')'`, overwriting the
final character of the accumulated string with the closing parenthesis. -/
def dnssd_description (ctx : IioCtx) (addr_str : Str) : Str :=
  match ctx.hw_model, ctx.hw_serial with
  | some hw, some se =>
    (addr_str ++ (" (").toList ++ hw ++ ("), serial=").toList ++ se).take 254
  | some hw, none => (addr_str ++ [' '] ++ hw).take 254
  | none, some se => (addr_str ++ [' '] ++ se).take 254
  | none, none =>
    if ctx.devices.length = 0 then ctx.description.take 254
    else
      let d0 := (addr_str ++ (" (").toList).take 254
      let dj := devJoinLoop (ctx.devices.take (ctx.devices.length - 1)) d0
      dj.dropLast ++ [')']

/-- The URI built by `dnssd_fill_context_info`: `"ip:<hostname>"` when the
port is `IIOD_PORT` (30431), else `"ip:<hostname>:<port>"`. -/
def dnssd_uri (hostname : Str) (port : Nat) : Str :=
  if port = 30431 then ("ip:").toList ++ hostname
  else ("ip:").toList ++ hostname ++ [':'] ++ (Nat.repr port).toList

/-! ## `dnssd_context_scan` and `dnssd_discover_host`

Modelled from the spec: `dnssd_find_hosts` (the discovery backends) is an
external collaborator: `find_hosts() -> DiscoverySequence | error`.  On
success it hands over the chain `recs ++ [blankRec]` and returns the
candidate count (the scan reserves that many result slots from it); on error
— including the specific "no hosts advertised" code `-ENXIO` — it returns a
negative code and hands over no live sequence.

Modelled from the spec: the result aggregator `iio_scan_result_add`
(`reserve(n) -> slice_of_descriptor_slots`) appends `n` empty descriptor
slots to the caller-owned result set; its allocation may fail, which is the
oracle `addOk` (per call number).  `dnssd_fill_context_info` as a whole is
abstracted by the oracle `fill`, returning either the built descriptor or a
negative error code. -/

/-- Outcome of `dnssd_find_hosts`. -/
inductive FindResult where
  | err (code : Int)
  | ok (recs : List DnsSdRec)
deriving DecidableEq, Repr

/-- One context descriptor (`struct iio_context_info`). -/
structure DescInfo where
  uri : Str
  description : Str
deriving DecidableEq, Repr

/-- `errno` values used in `dns_sd.c` (returned negated). -/
def enxioCode : Int := 6

def enomemCode : Int := 12

/-- `iio_scan_result_add(scan_result, n)`: reserve `n` empty slots at the end
of the result set. -/
def scan_result_add (sr : List (Option DescInfo)) (n : Nat) : List (Option DescInfo) :=
  sr ++ List.replicate n none

/-- The descriptor-building loop of `dnssd_context_scan`:
`for (ndata = ddata; ndata->next != NULL; ndata = ndata->next)` — one
iteration per record of the chain.  Each iteration reserves one slot
(failing with `-ENOMEM` if the aggregator fails) and fills it; the first
negative fill return breaks the loop.  `k` counts `iio_scan_result_add`
calls, `ret` is the running return value. -/
def scanLoop (addOk : Nat → Bool) (fill : DnsSdRec → Except Int DescInfo) :
    Nat → Int → List (Option DescInfo) → List DnsSdRec →
    Int × List (Option DescInfo)
  | _, ret, sr, [] => (ret, sr)
  | k, _, sr, r :: rest =>
    if addOk k then
      match fill r with
      | .ok d => scanLoop addOk fill (k + 1) 0 (sr ++ [some d]) rest
      | .error e => (e, sr ++ [none])
    else (-enomemCode, sr)

/-- `dnssd_context_scan(ctx, scan_result)`.  Returns the return value, the
final result set, and the live nodes of the discovery chain after return. -/
def dnssd_context_scan (find : FindResult) (addOk : Nat → Bool)
    (fill : DnsSdRec → Except Int DescInfo) (sr : List (Option DescInfo)) :
    Int × List (Option DescInfo) × List DnsSdRec :=
  match find with
  | .err e =>
    -- `if (ret == -ENXIO) return 0; if (ret < 0) return ret;` — no chain was
    -- handed over, so there is nothing to free on these two paths.
    if e = -enxioCode then (0, sr, []) else (e, sr, [])
  | .ok recs =>
    let chain := recs ++ [blankRec]
    if addOk 0 then
      let st := scanLoop addOk fill 1 (Int.ofNat recs.length)
        (scan_result_add sr recs.length) recs
      (st.1, st.2, dnssd_free_all_discovery_data chain)
    else
      -- `ret = -ENOMEM; goto context_scan_err;`
      (-enomemCode, sr, dnssd_free_all_discovery_data chain)

/-- `dnssd_discover_host(addr_str, addr_len, port)`.  Returns the return
value, the output address buffer, the output port and the live nodes of the
discovery chain after return.  `if (ddata)` is true whenever a chain was
handed over (on success it is at least the placeholder node), and then the
head node's `addr_str` (truncated by `strncpy` to `addr_len` bytes) and
`port` are copied out. -/
def dnssd_discover_host (find : FindResult) (addr_buf : String) (addr_len : Nat)
    (port0 : Nat) : Int × String × Nat × List DnsSdRec :=
  match find with
  | .err e => (e, addr_buf, port0, [])
  | .ok recs =>
    let chain := recs ++ [blankRec]
    let hd := chain.headI
    (Int.ofNat recs.length, hd.addr_str.take addr_len, hd.port,
      dnssd_free_all_discovery_data chain)

/-! ## Lemmas -/

theorem removeNodeGo_cons_zero (x : DnsSdRec) (tl : List DnsSdRec) :
    removeNodeGo (x :: tl) 0 = tl := rfl

/-- The scanning loop removes the element at offset `n - i` exactly when that
element exists and has a successor; otherwise it leaves the list unchanged. -/
theorem removeLoop_eq (n : Nat) :
    ∀ (l : List DnsSdRec) (i : Nat), i ≤ n →
      removeLoop i n l = if n - i + 2 ≤ l.length then l.eraseIdx (n - i) else l := by
  intro l
  induction l with
  | nil =>
    intro i _
    simp [removeLoop]
  | cons x tl ih =>
    intro i hin
    cases tl with
    | nil =>
      simp only [removeLoop, List.length_singleton]
      rw [if_neg (by omega)]
    | cons y tt =>
      by_cases hi : i = n
      · subst hi
        have hc : i - i + 2 ≤ (x :: y :: tt).length := by
          simp only [List.length_cons]
          omega
        rw [if_pos hc]
        have h0 : i - i = 0 := Nat.sub_self i
        rw [h0]
        simp [removeLoop]
      · have hin' : i + 1 ≤ n := by omega
        have hrec := ih (i + 1) hin'
        simp only [removeLoop, if_neg hi, hrec, List.length_cons]
        have hsub : n - i = (n - (i + 1)) + 1 := by omega
        by_cases hc : n - (i + 1) + 2 ≤ tt.length + 1
        · rw [if_pos hc, if_pos (by rw [hsub]; omega), hsub]
          rfl
        · rw [if_neg hc, if_neg (by rw [hsub]; omega)]

theorem removeNodeGo_succ (x y : DnsSdRec) (tl : List DnsSdRec) (n : Nat) :
    removeNodeGo (x :: y :: tl) (n + 1) = removeLoop 0 (n + 1) (x :: y :: tl) := rfl

theorem removeNodeGo_single (x : DnsSdRec) (n : Nat) :
    removeNodeGo [x] (n + 1) = [x] := rfl

/-- Closed form of `removeNodeGo` on a non-empty chain. -/
theorem removeNodeGo_eq (l : List DnsSdRec) (n : Nat) (hl : l ≠ []) :
    removeNodeGo l n =
      if n = 0 then l.tail
      else if n + 2 ≤ l.length then l.eraseIdx n else l := by
  match l, n with
  | [], _ => exact absurd rfl hl
  | x :: tl, 0 => simp [removeNodeGo]
  | [x], n + 1 => simp [removeNodeGo_single]
  | x :: y :: tl, n + 1 =>
    rw [removeNodeGo_succ, removeLoop_eq (n + 1) (x :: y :: tl) 0 (Nat.zero_le _)]
    simp only [Nat.sub_zero, if_neg (Nat.succ_ne_zero n)]

theorem dnssd_remove_node_of_ne_nil (l : List DnsSdRec) (n : Nat) (hl : l ≠ []) :
    dnssd_remove_node l n = some (removeNodeGo l n) := by
  match l with
  | [] => exact absurd rfl hl
  | _ :: _ => rfl

theorem chain_ne_nil (rs : List DnsSdRec) : rs ++ [blankRec] ≠ [] := by
  simp

/-- `dnssd_free_all_discovery_data` empties every chain. -/
theorem free_all_eq_nil (l : List DnsSdRec) : dnssd_free_all_discovery_data l = [] := by
  induction l with
  | nil => rfl
  | cons x tl ih =>
    rw [dnssd_free_all_discovery_data, removeNodeGo_cons_zero]
    exact ih


/-- With a never-failing aggregator and always-succeeding descriptor builds,
the descriptor loop appends one filled slot per record and ends with return
value `0` (the last build's return) — or the initial value if there was no
record at all. -/
theorem scanLoop_all_ok (addOk : Nat → Bool) (haddOk : ∀ k, addOk k = true)
    (fillF : DnsSdRec → DescInfo) :
    ∀ (rest : List DnsSdRec) (k : Nat) (ret0 : Int) (sr0 : List (Option DescInfo)),
      scanLoop addOk (fun r => .ok (fillF r)) k ret0 sr0 rest =
        ((if rest = [] then ret0 else 0), sr0 ++ rest.map (fun r => some (fillF r))) := by
  intro rest
  induction rest with
  | nil => intro k ret0 sr0; simp [scanLoop]
  | cons r rest' ih =>
    intro k ret0 sr0
    rw [scanLoop, if_pos (haddOk k)]
    simp only [ih (k + 1) 0 (sr0 ++ [some (fillF r)]), List.map_cons, List.cons_ne_nil,
      if_neg (List.cons_ne_nil r rest'), List.append_assoc, List.singleton_append,
      ite_self, if_false]

/-- When every descriptor-build failure carries a negative code, the
descriptor loop either returns a strictly negative value, or it returns its
would-be success value (`0` after at least one record, the initial value
otherwise) and then every reservation it made succeeded and every record's
build succeeded: a return of `0` never hides a reached failure. -/
theorem scanLoop_dichotomy (addOk : Nat → Bool) (fill : DnsSdRec → Except Int DescInfo)
    (hneg : ∀ r e, fill r = .error e → e < 0) :
    ∀ (rest : List DnsSdRec) (k : Nat) (ret0 : Int) (sr0 : List (Option DescInfo)),
      (scanLoop addOk fill k ret0 sr0 rest).1 < 0 ∨
      ((scanLoop addOk fill k ret0 sr0 rest).1 = (if rest = [] then ret0 else 0) ∧
        (∀ j, j < rest.length → addOk (k + j) = true) ∧
        (∀ r, r ∈ rest → ∃ d, fill r = .ok d)) := by
  intro rest
  induction rest with
  | nil =>
    intro k ret0 sr0
    right
    refine ⟨by simp [scanLoop], ?_, ?_⟩
    · intro j hj
      simp at hj
    · intro r hr
      simp at hr
  | cons r rest' ih =>
    intro k ret0 sr0
    rw [scanLoop]
    by_cases hk : addOk k
    · rw [if_pos hk]
      cases hfill : fill r with
      | error e =>
        left
        exact hneg r e hfill
      | ok d =>
        rcases ih (k + 1) 0 (sr0 ++ [some d]) with h | ⟨h1, h2, h3⟩
        · left
          exact h
        · right
          refine ⟨?_, ?_, ?_⟩
          · rw [h1]
            simp [if_neg (List.cons_ne_nil r rest'), ite_self]
          · intro j hj
            cases j with
            | zero => simpa using hk
            | succ j' =>
              have heq : k + (j' + 1) = (k + 1) + j' := by omega
              rw [heq]
              exact h2 j' (by simp only [List.length_cons] at hj; omega)
          · intro r' hr'
            rcases List.mem_cons.mp hr' with h | h
            · subst h
              exact ⟨d, hfill⟩
            · exact h3 r' h
    · rw [if_neg hk]
      left
      norm_num [enomemCode]

/-- As long as everything fits in the buffer, the device-name loop appends
`"<name>,"` in full for every device with a non-null name. -/
theorem devJoinLoop_no_trunc :
    ∀ (devs : List IioDevice) (acc : Str),
      acc.length +
          (((devs.filterMap IioDevice.devname).map (fun nm => nm.length + 1)).sum) ≤ 253 →
      devJoinLoop devs acc =
        acc ++ ((devs.filterMap IioDevice.devname).map (fun nm => nm ++ [','])).flatten := by
  intro devs
  induction devs with
  | nil => intro acc _; simp [devJoinLoop]
  | cons dev rest ih =>
    intro acc hfit
    cases hdn : dev.devname with
    | none =>
      rw [devJoinLoop, hdn, ih acc (by simpa [hdn] using hfit)]
      simp [hdn]
    | some nm =>
      have hfit' := hfit
      rw [List.filterMap_cons, hdn] at hfit'
      simp only [List.map_cons, List.sum_cons] at hfit'
      have hnm : (nm ++ [',']).length ≤ 253 - acc.length := by
        simp only [List.length_append, List.length_singleton]
        omega
      simp only [devJoinLoop, hdn]
      rw [List.take_of_length_le hnm,
        ih (acc ++ (nm ++ [','])) (by
          simp only [List.length_append, List.length_singleton]
          omega)]
      simp [hdn, List.append_assoc]

/-- The comma-joined name segment is non-empty whenever some name exists. -/
theorem commaJoin_ne_nil (ns : List Str) (h : ns ≠ []) :
    (ns.map (fun nm => nm ++ [','])).flatten ≠ [] := by
  cases ns with
  | nil => exact absurd rfl h
  | cons nm rest =>
    simp [List.flatten]

/-! ## Claims -/

/-- Claim C2: for a sequence of `n` records and every valid 0-based index
`k` (including `0` and `n - 1`), `dnssd_remove_node` yields the sequence of
length `n - 1` with the element at position `k` excluded (order preserved);
for an out-of-range index the record sequence is left unchanged. -/
theorem claim_C2_remove_node (rs : List DnsSdRec) (k : Nat) :
    (k < rs.length →
      dnssd_remove_node (rs ++ [blankRec]) k = some (rs.eraseIdx k ++ [blankRec]) ∧
      (rs.eraseIdx k).length = rs.length - 1) ∧
    (rs.length ≤ k →
      (dnssd_remove_node (rs ++ [blankRec]) k).map chainRecords = some rs) := by
  have hne := chain_ne_nil rs
  rw [dnssd_remove_node_of_ne_nil _ _ hne, removeNodeGo_eq _ _ hne]
  constructor
  · intro hk
    have hlen : (rs.eraseIdx k).length = rs.length - 1 := by
      rw [List.length_eraseIdx, if_pos hk]
    refine ⟨?_, hlen⟩
    cases k with
    | zero =>
      cases rs with
      | nil => exact absurd hk (by simp)
      | cons r tl => simp
    | succ k' =>
      rw [if_neg (Nat.succ_ne_zero k'),
        if_pos (by simp only [List.length_append, List.length_singleton]; omega),
        List.eraseIdx_append_of_lt_length hk]
  · intro hk
    cases k with
    | zero =>
      have hrs : rs = [] := List.eq_nil_of_length_eq_zero (by omega)
      subst hrs
      simp [chainRecords]
    | succ k' =>
      rw [if_neg (Nat.succ_ne_zero k'),
        if_neg (by simp only [List.length_append, List.length_singleton]; omega)]
      simp [chainRecords]

/-- Claim C2, witness: removal at index 1 of a two-record sequence. -/
theorem claim_C2_witness :
    (1 < ([⟨"a", "10.0.0.1", 1⟩, ⟨"b", "10.0.0.2", 2⟩] : List DnsSdRec).length) ∧
      dnssd_remove_node (([⟨"a", "10.0.0.1", 1⟩, ⟨"b", "10.0.0.2", 2⟩] :
          List DnsSdRec) ++ [blankRec]) 1 =
        some (([⟨"a", "10.0.0.1", 1⟩, ⟨"b", "10.0.0.2", 2⟩] :
          List DnsSdRec).eraseIdx 1 ++ [blankRec]) :=
  ⟨by decide,
    ((claim_C2_remove_node [⟨"a", "10.0.0.1", 1⟩, ⟨"b", "10.0.0.2", 2⟩] 1).1
      (by decide)).1⟩

/-- Claim C5: when `dnssd_find_hosts` reports the no-hosts condition
(`-ENXIO`), `dnssd_context_scan` returns `0` and appends nothing to the
caller's result set. -/
theorem claim_C5_no_hosts (addOk : Nat → Bool) (fill : DnsSdRec → Except Int DescInfo)
    (sr : List (Option DescInfo)) :
    dnssd_context_scan (.err (-enxioCode)) addOk fill sr = (0, sr, []) := by
  simp [dnssd_context_scan]

/-- Claim C4: on every exit path of `dnssd_context_scan` the discovery
sequence holds no live records afterwards (on error paths `dnssd_find_hosts`
hands over no sequence; on all other paths the chain goes through
`dnssd_free_all_discovery_data`). -/
theorem claim_C4_teardown (find : FindResult) (addOk : Nat → Bool)
    (fill : DnsSdRec → Except Int DescInfo) (sr : List (Option DescInfo)) :
    (dnssd_context_scan find addOk fill sr).2.2 = [] := by
  cases find with
  | err e =>
    by_cases he : e = -enxioCode <;> simp [dnssd_context_scan, he]
  | ok recs =>
    by_cases ha : addOk 0 <;> simp [dnssd_context_scan, ha, free_all_eq_nil]

/-- Claim C1: evaluation of `port_knock_discovery_data` at the failing
input — a single record whose resolution yields two candidates, the first
refusing and the second accepting the connection.  The claim (and §4.3 of
the spec) requires the record to be retained, since one resolved candidate
accepted; the code removes it at the first failing candidate (the removal
happens per failing candidate, not once after all candidates failed), so
the surviving record sequence is empty. -/
theorem claim_C1_eval :
    (port_knock_discovery_data (fun _ _ => some [false, true])
        [⟨"dev1", "192.168.2.1", 30431⟩, blankRec] (arenaOf 2)).map
      (arenaRecords [⟨"dev1", "192.168.2.1", 30431⟩, blankRec]) = some [] := by
  decide

/-- Claim C7: evaluation of `remove_dup_discovery_data` at the failing
input — three records with identical `(hostname, addr_str)` keys.  One pass
keeps two of them (after the first removal the running index `j` is still
incremented, so the second removal targets the trailing placeholder, a
no-op), a second pass removes one more: the deduplicator is not idempotent,
although the claim (and §8 of the spec) says twice equals once. -/
theorem claim_C7_eval :
    arenaRecords [⟨"h", "10.0.0.1", 1⟩, ⟨"h", "10.0.0.1", 2⟩, ⟨"h", "10.0.0.1", 3⟩, blankRec]
        (remove_dup_discovery_data
          [⟨"h", "10.0.0.1", 1⟩, ⟨"h", "10.0.0.1", 2⟩, ⟨"h", "10.0.0.1", 3⟩, blankRec]
          (arenaOf 4)) =
      [⟨"h", "10.0.0.1", 1⟩, ⟨"h", "10.0.0.1", 3⟩] ∧
    arenaRecords [⟨"h", "10.0.0.1", 1⟩, ⟨"h", "10.0.0.1", 2⟩, ⟨"h", "10.0.0.1", 3⟩, blankRec]
        (remove_dup_discovery_data
          [⟨"h", "10.0.0.1", 1⟩, ⟨"h", "10.0.0.1", 2⟩, ⟨"h", "10.0.0.1", 3⟩, blankRec]
          (remove_dup_discovery_data
            [⟨"h", "10.0.0.1", 1⟩, ⟨"h", "10.0.0.1", 2⟩, ⟨"h", "10.0.0.1", 3⟩, blankRec]
            (arenaOf 4))) =
      [⟨"h", "10.0.0.1", 1⟩] := by
  constructor <;> decide

/-- Claim C10: the reachability validator dereferences the head of the
chain unconditionally (no null check before `iio_mutex_lock(d->lock)`), so
a null chain hits the embedded error case; the deduplicator by contrast
returns unchanged on a null chain and on a single-node chain through its
two guards, before ever reaching `iio_mutex_lock`. -/
theorem claim_C10_preconditions :
    (∀ (resolve : String → Nat → Option (List Bool)) (recs : List DnsSdRec),
      port_knock_discovery_data resolve recs (arenaOf 0) = none) ∧
    (∀ recs : List DnsSdRec,
      remove_dup_discovery_data recs (arenaOf 0) = arenaOf 0 ∧
      remove_dup_discovery_data recs (arenaOf 1) = arenaOf 1) ∧
    remove_dup_locks (arenaOf 0) = false ∧ remove_dup_locks (arenaOf 1) = false :=
  ⟨fun _ _ => rfl, fun _ => ⟨rfl, rfl⟩, rfl, rfl⟩

/-- Claim C3, counterexample: a successful scan over one record adds one
reserved slot plus one filled descriptor to the result set, yet returns `0`
(the return value of the last descriptor build), not the number of
descriptors added. -/
theorem claim_C3_counterexample :
    dnssd_context_scan (.ok [⟨"dev1", "192.168.2.1", 30431⟩]) (fun _ => true)
        (fun _ => .ok ⟨("ip:dev1").toList, ("d").toList⟩) [] =
      (0, [none, some ⟨("ip:dev1").toList, ("d").toList⟩], []) ∧
    (0 : Int) ≠ 1 ∧ (0 : Int) ≠ 2 := by
  refine ⟨?_, by decide, by decide⟩
  rfl

/-- Claim C3, amended: on a successful scan `dnssd_context_scan` returns `0`
(the return value of the final descriptor build — not the number of
descriptors added; the result set receives `N` reserved empty slots plus one
filled slot per record), and on failure it returns a negative error code:
a non-`ENXIO` discovery error is passed through verbatim (negative by the
discovery contract), a failing first reservation returns `-ENOMEM`, and on
the record loop the return value is `0` only when every reservation made and
every record's build succeeded — any reached reservation or build failure
yields a strictly negative return. -/
theorem claim_C3_amended (recs : List DnsSdRec) (addOk : Nat → Bool)
    (fillF : DnsSdRec → DescInfo) (fill : DnsSdRec → Except Int DescInfo)
    (sr : List (Option DescInfo)) :
    ((∀ k, addOk k = true) →
      dnssd_context_scan (.ok recs) addOk (fun r => .ok (fillF r)) sr =
        (0, (sr ++ List.replicate recs.length none) ++
          recs.map (fun r => some (fillF r)), [])) ∧
    ((∀ r e, fill r = .error e → e < 0) →
      (dnssd_context_scan (.ok recs) addOk fill sr).1 < 0 ∨
      ((dnssd_context_scan (.ok recs) addOk fill sr).1 = 0 ∧
        (∀ j, j ≤ recs.length → addOk j = true) ∧
        (∀ r, r ∈ recs → ∃ d, fill r = .ok d))) ∧
    (addOk 0 = false →
      dnssd_context_scan (.ok recs) addOk fill sr = (-enomemCode, sr, [])) ∧
    (∀ e : Int, e < 0 → e ≠ -enxioCode →
      dnssd_context_scan (.err e) addOk fill sr = (e, sr, []) ∧
      (dnssd_context_scan (.err e) addOk fill sr).1 < 0) := by
  refine ⟨?_, ?_, ?_, ?_⟩
  · intro haddOk
    rw [dnssd_context_scan]
    rw [if_pos (haddOk 0), scanLoop_all_ok addOk haddOk fillF recs 1 (Int.ofNat recs.length)
      (scan_result_add sr recs.length)]
    cases hrecs : recs with
    | nil => simp [hrecs, scan_result_add, free_all_eq_nil]
    | cons r rest =>
      simp [scan_result_add, free_all_eq_nil, if_neg (List.cons_ne_nil r rest)]
  · intro hneg
    rw [dnssd_context_scan]
    by_cases ha : addOk 0
    · rw [if_pos ha]
      rcases scanLoop_dichotomy addOk fill hneg recs 1 (Int.ofNat recs.length)
          (scan_result_add sr recs.length) with h | ⟨h1, h2, h3⟩
      · left
        exact h
      · right
        refine ⟨?_, ?_, h3⟩
        · show (scanLoop addOk fill 1 (Int.ofNat recs.length)
            (scan_result_add sr recs.length) recs).1 = 0
          rw [h1]
          cases recs with
          | nil => simp
          | cons r rest => simp [if_neg (List.cons_ne_nil r rest)]
        · intro j hj
          cases j with
          | zero => exact ha
          | succ j' =>
            have heq : j' + 1 = 1 + j' := by omega
            rw [heq]
            exact h2 j' (by omega)
    · rw [if_neg ha]
      left
      norm_num [enomemCode]
  · intro ha
    rw [dnssd_context_scan, if_neg (by simp [ha]), free_all_eq_nil]
  · intro e he hne
    have heq : dnssd_context_scan (.err e) addOk fill sr = (e, sr, []) := by
      simp only [dnssd_context_scan, if_neg hne]
    exact ⟨heq, by rw [heq]; exact he⟩

/-- Claim C3 (amended), witness: a fully successful one-record scan. -/
theorem claim_C3_witness :
    (∀ k, (fun (_ : Nat) => true) k = true) ∧
      dnssd_context_scan (.ok [⟨"a", "10.0.0.9", 7⟩]) (fun _ => true)
          (fun _ => .ok ⟨[], []⟩) [] =
        (0, ([] ++ List.replicate ([⟨"a", "10.0.0.9", 7⟩] :
            List DnsSdRec).length none) ++
          ([⟨"a", "10.0.0.9", 7⟩] : List DnsSdRec).map (fun _ => some (⟨[], []⟩ :
            DescInfo)), []) :=
  ⟨fun _ => rfl,
    (claim_C3_amended [⟨"a", "10.0.0.9", 7⟩] (fun _ => true) (fun _ => ⟨[], []⟩)
      (fun _ => .ok ⟨[], []⟩) []).1 (fun _ => rfl)⟩

/-- Claim C9, counterexample: when discovery finds nothing it reports the
no-hosts condition `-ENXIO` and hands over no sequence, and
`dnssd_discover_host` returns that code verbatim — a negative value, where
the claim promises a non-negative code. -/
theorem claim_C9_counterexample :
    dnssd_discover_host (.err (-enxioCode)) "BUF" 16 7 = (-6, "BUF", 7, []) ∧
      (-6 : Int) < 0 := by
  exact ⟨rfl, by decide⟩

/-- Claim C9, amended: `dnssd_discover_host` returns the discovery return
code verbatim (negative `-ENXIO` included when discovery found nothing, with
the output buffer and port left unmodified); when at least one record exists
it copies the first record's address truncated to the buffer capacity and
that record's port; and the discovery sequence holds no live records on any
exit path. -/
theorem claim_C9_amended (e : Int) (buf : String) (len : Nat) (p0 : Nat)
    (r : DnsSdRec) (rest : List DnsSdRec) :
    dnssd_discover_host (.err e) buf len p0 = (e, buf, p0, []) ∧
    dnssd_discover_host (.ok (r :: rest)) buf len p0 =
      (Int.ofNat (r :: rest).length, r.addr_str.take len, r.port, []) := by
  constructor
  · rfl
  · rw [dnssd_discover_host]
    rw [show (r :: rest) ++ [blankRec] = r :: (rest ++ [blankRec]) from rfl]
    rw [free_all_eq_nil]
    rfl

/-- Claim C6: on a sequence of exactly two records that agree on
`(hostname, addr_str)` (case-sensitive, exact) but differ in port, the
deduplicator removes the later-positioned record and keeps the earlier one,
regardless of port. -/
theorem claim_C6_dedup_pair (hn ad : String) (p1 p2 : Nat) (_hp : p1 ≠ p2) :
    arenaRecords [⟨hn, ad, p1⟩, ⟨hn, ad, p2⟩, blankRec]
      (remove_dup_discovery_data [⟨hn, ad, p1⟩, ⟨hn, ad, p2⟩, blankRec] (arenaOf 3)) =
    [⟨hn, ad, p1⟩] := by
  simp [remove_dup_discovery_data, arenaOf, nxtOf, dedupOuter, dedupInner,
    arenaRemoveNode, arenaRemoveLoop, setNxt, recOf, arenaRecords, arenaChain,
    walkChain, List.getD, List.range_succ]

/-- Claim C6, witness: a concrete equal-key pair with ports 1 and 2. -/
theorem claim_C6_witness :
    (1 : Nat) ≠ 2 ∧
      arenaRecords [⟨"h", "10.0.0.1", 1⟩, ⟨"h", "10.0.0.1", 2⟩, blankRec]
        (remove_dup_discovery_data
          [⟨"h", "10.0.0.1", 1⟩, ⟨"h", "10.0.0.1", 2⟩, blankRec] (arenaOf 3)) =
      [⟨"h", "10.0.0.1", 1⟩] :=
  ⟨by decide, claim_C6_dedup_pair "h" "10.0.0.1" 1 2 (by decide)⟩

/-- Claim C8, counterexample: with neither attribute known and exactly one
device, the claim's format `"<address> ("` followed by the joined names is
not produced: the loop over `nb_devices - 1 = 0` devices appends nothing,
and `p--; *p = ')'` overwrites the opening parenthesis itself, giving
`"A )"` — which does not even start with `"A ("`. -/
theorem claim_C8_counterexample :
    dnssd_description ⟨none, none, [], [⟨some ("dev0").toList⟩]⟩ ("A").toList =
      ("A )").toList ∧
    ¬ (("A (").toList <+: ("A )").toList) := by
  exact ⟨rfl, by decide⟩

/-- Claim C8, amended: the description follows the claimed priority,
provided each formatted string fits the 255-byte buffer (`snprintf`
truncates to 254 bytes otherwise): both attributes →
`"<address> (<model>), serial=<serial>"`; only model → `"<address> <model>"`;
only serial → `"<address> <serial>"`; neither and zero devices → the
session's top-level description; neither and at least one non-null device
name among all devices but the last → `"<address> ("` ++ the comma-joined
such names with the trailing comma overwritten by `')'` (the last device's
name omitted).  (With no usable name before the last device — in particular
with exactly one device — the opening parenthesis itself is overwritten,
see the counterexample.) -/
theorem claim_C8_amended (ctx : IioCtx) (addr : Str) :
    (∀ hw se, ctx.hw_model = some hw → ctx.hw_serial = some se →
      (addr ++ (" (").toList ++ hw ++ ("), serial=").toList ++ se).length ≤ 254 →
      dnssd_description ctx addr =
        addr ++ (" (").toList ++ hw ++ ("), serial=").toList ++ se) ∧
    (∀ hw, ctx.hw_model = some hw → ctx.hw_serial = none →
      (addr ++ [' '] ++ hw).length ≤ 254 →
      dnssd_description ctx addr = addr ++ [' '] ++ hw) ∧
    (∀ se, ctx.hw_model = none → ctx.hw_serial = some se →
      (addr ++ [' '] ++ se).length ≤ 254 →
      dnssd_description ctx addr = addr ++ [' '] ++ se) ∧
    (ctx.hw_model = none → ctx.hw_serial = none → ctx.devices = [] →
      ctx.description.length ≤ 254 →
      dnssd_description ctx addr = ctx.description) ∧
    (∀ ns, ctx.hw_model = none → ctx.hw_serial = none →
      ns = (ctx.devices.take (ctx.devices.length - 1)).filterMap IioDevice.devname →
      ns ≠ [] →
      addr.length + 2 + ((ns.map (fun nm => nm.length + 1)).sum) ≤ 253 →
      dnssd_description ctx addr =
        addr ++ (" (").toList ++
          ((ns.map (fun nm => nm ++ [','])).flatten).dropLast ++ [')']) := by
  obtain ⟨m, s, de, ds⟩ := ctx
  refine ⟨?_, ?_, ?_, ?_, ?_⟩
  · intro hw se hm hs hfit
    simp only at hm hs
    subst hm; subst hs
    simp only [dnssd_description]
    exact List.take_of_length_le hfit
  · intro hw hm hs hfit
    simp only at hm hs
    subst hm; subst hs
    simp only [dnssd_description]
    exact List.take_of_length_le hfit
  · intro se hm hs hfit
    simp only at hm hs
    subst hm; subst hs
    simp only [dnssd_description]
    exact List.take_of_length_le hfit
  · intro hm hs hds hfit
    simp only at hm hs hds hfit
    subst hm; subst hs; subst hds
    simp only [dnssd_description, List.length_nil, if_pos rfl]
    exact List.take_of_length_le hfit
  · intro ns hm hs hdef hns hfit
    simp only at hm hs hdef
    subst hm; subst hs
    have hds : ds.length ≠ 0 := by
      intro h0
      have : ds = [] := List.eq_nil_of_length_eq_zero h0
      subst this
      simp at hdef
      exact hns hdef
    simp only [dnssd_description, if_neg hds]
    have hsp : ((" (").toList : Str).length = 2 := by decide
    have hd0 : ((addr ++ (" (").toList).take 254) = addr ++ (" (").toList := by
      apply List.take_of_length_le
      simp only [List.length_append, hsp]
      omega
    rw [hd0]
    have hjoin := devJoinLoop_no_trunc (ds.take (ds.length - 1)) (addr ++ (" (").toList)
      (by rw [← hdef]; simp only [List.length_append, hsp]; omega)
    rw [hjoin, ← hdef]
    rw [List.dropLast_append_of_ne_nil _ (commaJoin_ne_nil ns hns)]

/-- Claim C8 (amended), witness: model and serial both known. -/
theorem claim_C8_witness :
    (("192.168.2.1").toList ++ (" (").toList ++ ("M2K").toList ++
        ("), serial=").toList ++ ("SN123").toList).length ≤ 254 ∧
      dnssd_description ⟨some ("M2K").toList, some ("SN123").toList, [], []⟩
          ("192.168.2.1").toList =
        ("192.168.2.1").toList ++ (" (").toList ++ ("M2K").toList ++
          ("), serial=").toList ++ ("SN123").toList :=
  ⟨by decide,
    (claim_C8_amended ⟨some ("M2K").toList, some ("SN123").toList, [], []⟩
      ("192.168.2.1").toList).1 (("M2K").toList) (("SN123").toList) rfl rfl (by decide)⟩
